import Mathlib

/-!
Verification of the targeted sentiment attribution engine
(`src/sentiment.py` and `src/sentiment_report.py`).

Modelling conventions:
* Python `float` values are modelled as exact rationals (`ℚ`); the lexicon
  weights and all thresholds are decimal literals, which `ℚ` represents
  exactly.
* Python's `round(x, n)` is modelled as exact decimal rounding with
  ties-to-even (`roundTo`).
* `unicodedata.normalize("NFKD", ·)` followed by removal of combining marks
  (`_strip_accents`) is modelled by `deaccent`, the per-character NFKD
  base-letter map restricted to the Latin-1 range, which covers every
  accented character occurring in the repository's Portuguese lexicon and
  phrase lists.
* Python dicts of the lexicon are modelled as association lists with
  first-match lookup (`dictGet`); dict-literal keys are unique, so this
  agrees with Python dict lookup.
-/

namespace Sentiment

/-- NFKD base letter for the Latin-1 accented characters (`_strip_accents`):
decompose and drop the combining mark.  Characters outside this table are
left unchanged. -/
def deaccent (c : Char) : Char :=
  match c with
  | 'À' | 'Á' | 'Â' | 'Ã' | 'Ä' | 'Å' => 'A'
  | 'Ç' => 'C'
  | 'È' | 'É' | 'Ê' | 'Ë' => 'E'
  | 'Ì' | 'Í' | 'Î' | 'Ï' => 'I'
  | 'Ñ' => 'N'
  | 'Ò' | 'Ó' | 'Ô' | 'Õ' | 'Ö' => 'O'
  | 'Ù' | 'Ú' | 'Û' | 'Ü' => 'U'
  | 'Ý' => 'Y'
  | 'à' | 'á' | 'â' | 'ã' | 'ä' | 'å' => 'a'
  | 'ç' => 'c'
  | 'è' | 'é' | 'ê' | 'ë' => 'e'
  | 'ì' | 'í' | 'î' | 'ï' => 'i'
  | 'ñ' => 'n'
  | 'ò' | 'ó' | 'ô' | 'õ' | 'ö' => 'o'
  | 'ù' | 'ú' | 'û' | 'ü' => 'u'
  | 'ý' | 'ÿ' => 'y'
  | _ => c

/-- Accent stripping followed by lowercasing, applied character by
character: the model of `_strip_accents(text).lower()`. -/
def stripLowerChars (l : List Char) : List Char :=
  l.map (fun c => (deaccent c).toLower)

/-- Membership in the regex character class `[\wÀ-ÿ]` used by `_WORD_RE`
(word characters plus the explicit Latin-1 range). -/
def isWordChar (c : Char) : Bool :=
  c.isAlphanum || c == '_' || (0xC0 ≤ c.toNat && c.toNat ≤ 0xFF)

/-- Accumulator-based splitter: maximal runs of characters satisfying `p`
(the model of `re.findall` over a single character class, and of
`str.split()` when `p` is non-whitespace). -/
def runsByAux (p : Char → Bool) : List Char → List Char → List (List Char)
  | [], acc => if acc.isEmpty then [] else [acc.reverse]
  | c :: cs, acc =>
    if p c then runsByAux p cs (c :: acc)
    else if acc.isEmpty then runsByAux p cs [] else acc.reverse :: runsByAux p cs []

/-- Maximal runs of characters satisfying `p`. -/
def runsBy (p : Char → Bool) (l : List Char) : List (List Char) :=
  runsByAux p l []

/-- Model of `tokenize`: strip accents, lowercase, then collect the maximal
word-character runs. -/
def tokenize (text : String) : List String :=
  (runsBy isWordChar (stripLowerChars text.toList)).map String.mk

/-- Model of Python `str.split()`: maximal non-whitespace runs. -/
def splitWs (s : String) : List String :=
  (runsBy (fun c => !c.isWhitespace) s.toList).map String.mk

/-- Model of `normalize`: strip accents, lowercase, collapse whitespace runs
to single spaces, trim. -/
def normalize (text : String) : String :=
  String.intercalate " " (splitWs (String.mk (stripLowerChars text.toList)))

/-- Whether the first list is an initial segment of the second. -/
def listStarts : List Char → List Char → Bool
  | [], _ => true
  | _ :: _, [] => false
  | p :: ps, c :: cs => p == c && listStarts ps cs

/-- Whether `pat` occurs as a contiguous segment of the second list. -/
def listHasSub (pat : List Char) : List Char → Bool
  | [] => pat.isEmpty
  | c :: cs => listStarts pat (c :: cs) || listHasSub pat cs

/-- Model of Python's substring test `pat in hay`. -/
def strContains (hay pat : String) : Bool :=
  listHasSub pat.toList hay.toList

/-- Model of the frozen dataclass `Lexicon` (`sentiment.py`).  The Python
dataclass performs no validation: any field values form a `Lexicon`. -/
structure Lexicon where
  pos : List (String × ℚ)
  neg : List (String × ℚ)
  negators : List String
  intensifiers : List (String × ℚ)
  diminishers : List (String × ℚ)

/-- First-match association-list lookup: the model of Python dict
indexing/membership for the lexicon tables. -/
def dictGet : List (String × ℚ) → String → Option ℚ
  | [], _ => none
  | (k, v) :: rest, t => if k == t then some v else dictGet rest t

/-- The built-in Portuguese lexicon `Lexicon.small_pt`, copied verbatim. -/
def Lexicon.small_pt : Lexicon where
  pos := [("bom", 1.0), ("boa", 1.0), ("otimo", 1.5), ("otima", 1.5),
    ("excelente", 2.0), ("parabens", 1.5), ("apoiar", 1.0), ("apoio", 1.0),
    ("competente", 1.5), ("honesto", 1.5), ("lideranca", 1.0),
    ("vitoria", 1.2), ("acertou", 1.2), ("certo", 0.8), ("tranquilo", 0.8),
    ("feliz", 1.2)]
  neg := [("ruim", -1.2), ("pessimo", -2.0), ("horrivel", -2.2),
    ("vergonha", -1.8), ("vergonhoso", -1.8), ("corrupto", -2.5),
    ("mentiroso", -2.0), ("incompetente", -2.0), ("fracasso", -1.8),
    ("crime", -1.5), ("criminoso", -2.2), ("canalha", -2.2), ("lixo", -2.0),
    ("odeio", -2.0), ("enganou", -1.5), ("errado", -1.2), ("culpa", -1.0),
    ("golpe", -1.5), ("vagabundo", -2.5), ("seboso", -1.6)]
  negators := ["nao", "nunca", "jamais", "sem"]
  intensifiers := [("muito", 1.5), ("mais", 1.2), ("super", 1.6),
    ("extremamente", 1.8), ("bastante", 1.3)]
  diminishers := [("pouco", 0.6), ("meio", 0.7), ("quase", 0.7)]

/-- Model of the dataclass `SentimentResult`. -/
structure SentimentResult where
  label : String
  score : ℚ
  confidence : ℚ
  hits : Nat
  mentioned : Bool

/-- Model of `TargetedLexiconAnalyzer._term_polarity`: positive table first,
then negative table, else `0.0`. -/
def termPolarity (lex : Lexicon) (term : String) : ℚ :=
  match dictGet lex.pos term with
  | some v => v
  | none =>
    match dictGet lex.neg term with
    | some v => v
    | none => 0

/-- Mention detection of `analyze` (lines 122-137 of `sentiment.py`): a
target counts as mentioned when its normalized form is a substring of the
space-joined tokens, or its last space-separated part (the surname) is one
of the tokens.  Empty raw or normalized targets are skipped. -/
def mentionedIn (toks : List String) (targets : List String) : Bool :=
  let normTargets := ((targets.filter (fun n => !(n == ""))).map normalize)
  let flat := String.intercalate " " toks
  normTargets.any (fun nt =>
    if nt = "" then false
    else
      strContains flat nt ||
        (match ((splitWs nt).filter (fun p => !(p == ""))).getLast? with
         | some p => toks.contains p
         | none => false))

/-- Clause-boundary connectives that end the backward negation scan,
in source order. -/
def clauseBoundaries : List String := ["mas", "porem", "porém", "so", "só"]

/-- One step of the backward negation scan (`while` loop of `analyze`):
examine the preceding tokens in backward order; a negator found first means
negated, a clause boundary found first stops the scan. -/
def scanBack (lex : Lexicon) : List String → Bool
  | [] => false
  | t :: rest =>
    if lex.negators.contains t then true
    else if clauseBoundaries.contains t then false
    else scanBack lex rest

/-- The backward window of `analyze` for index `i`: the up-to-3 tokens
immediately preceding `i`, nearest first. -/
def negWindow (toks : List String) (i : Nat) : List String :=
  (toks.take i).reverse.take 3

/-- Whether the token at index `i` gets its polarity inverted (`negated`
flag of `analyze`). -/
def negAt (lex : Lexicon) (toks : List String) (i : Nat) : Bool :=
  scanBack lex (negWindow toks i)

/-- Intensifier/diminisher multiplier from the immediately preceding token
(`mult` in `analyze`); both tables are consulted in sequence. -/
def multAt (lex : Lexicon) (toks : List String) (i : Nat) : ℚ :=
  let prev := if i = 0 then "" else toks.getD (i - 1) ""
  ((dictGet lex.intensifiers prev).getD 1) * ((dictGet lex.diminishers prev).getD 1)

/-- The contribution of token `i` before the negation flag is applied:
polarity times modifier. -/
def rawContrib (lex : Lexicon) (toks : List String) (i : Nat) : ℚ :=
  termPolarity lex (toks.getD i "") * multAt lex toks i

/-- The amount added to `score_sum` for token index `i` (zero when the token
carries no polarity). -/
def contribAt (lex : Lexicon) (toks : List String) (i : Nat) : ℚ :=
  if termPolarity lex (toks.getD i "") = 0 then 0
  else
    (if negAt lex toks i then -(termPolarity lex (toks.getD i ""))
     else termPolarity lex (toks.getD i "")) * multAt lex toks i

/-- The `score_sum` accumulated by the token loop of `analyze`. -/
def scoreSum (lex : Lexicon) (toks : List String) : ℚ :=
  ((List.range toks.length).map (contribAt lex toks)).sum

/-- The increment to the `hits` counter at token index `i`: 1 exactly when
the token has non-zero lexicon polarity. -/
def hitAt (lex : Lexicon) (toks : List String) (i : Nat) : Nat :=
  if termPolarity lex (toks.getD i "") = 0 then 0 else 1

/-- The `hits` counter of `analyze`: tokens with non-zero lexicon polarity. -/
def hitsCount (lex : Lexicon) (toks : List String) : Nat :=
  ((List.range toks.length).map (hitAt lex toks)).sum

/-- Decimal rounding helper: nearest integer with ties to even, the exact
counterpart of Python's `round` on our rational model. -/
def roundHalfEven (x : ℚ) : ℤ :=
  if x - ⌊x⌋ < 1/2 then ⌊x⌋
  else if x - ⌊x⌋ > 1/2 then ⌊x⌋ + 1
  else if ⌊x⌋ % 2 = 0 then ⌊x⌋ else ⌊x⌋ + 1

/-- Model of Python `round(x, n)`: round to `n` decimal places, ties to
even. -/
def roundTo (n : Nat) (x : ℚ) : ℚ :=
  (roundHalfEven (x * 10 ^ n) : ℚ) / 10 ^ n

/-- Label thresholds of `analyze` (lines 180-185). -/
def labelOf (avg : ℚ) : String :=
  if avg > 0.2 then "positivo"
  else if avg < -0.2 then "negativo"
  else "neutro"

/-- Base confidence of `analyze` (line 188): grows with `|avg|`, capped
at 1. -/
def confBase (avg : ℚ) : ℚ :=
  min 1 (0.5 + min 0.5 |avg|)

/-- Confidence formula of `analyze` (lines 188-190): base confidence, plus
a mention bonus of 0.15 capped at 1. -/
def confOf (avg : ℚ) (mentioned : Bool) : ℚ :=
  if mentioned then min 1 (confBase avg + 0.15) else confBase avg

/-- Model of `TargetedLexiconAnalyzer.analyze` (the lexicon is the
constructor-injected `self.lex`). -/
def analyze (lex : Lexicon) (text : String) (targets : List String) : SentimentResult :=
  let toks := tokenize text
  if toks.isEmpty then
    { label := "neutro", score := 0, confidence := 0.2, hits := 0, mentioned := false }
  else
    let mentioned := mentionedIn toks targets
    let hits := hitsCount lex toks
    if hits = 0 then
      { label := "neutro", score := 0,
        confidence := 0.3 + (if mentioned then 0.2 else 0),
        hits := 0, mentioned := mentioned }
    else
      let avg := scoreSum lex toks / (hits : ℚ)
      { label := labelOf avg
        score := roundTo 4 avg
        confidence := roundTo 3 (confOf avg mentioned)
        hits := hits
        mentioned := mentioned }

/-- Disagreement phrase list of `_detect_news_stance`, in source order. -/
def disagreePhrases : List String :=
  ["discordo", "nao concordo", "mentira", "e mentira", "isso e mentira",
   "fake news", "fake", "nao e verdade", "falso", "nao confere",
   "improcedente", "nao procede", "errado", "nada a ver"]

/-- Agreement phrase list of `_detect_news_stance`, in source order. -/
def agreePhrases : List String :=
  ["concordo", "concorda", "verdade", "e verdade", "isso e verdade",
   "confere", "procedente", "ta certo", "esta certo", "correto",
   "isso mesmo", "bem dito"]

/-- Model of `_detect_news_stance` (`sentiment_report.py`): disagreement
patterns are checked before agreement patterns. -/
def detectNewsStance (text : String) : String :=
  let t := normalize text
  if disagreePhrases.any (fun pat => strContains t pat) then "discorda"
  else if agreePhrases.any (fun pat => strContains t pat) then "concorda"
  else "indefinido"

/-- Model of `_derive_final_label` (`sentiment_report.py`): the attribution
cascade, returning (final label, final confidence, origin). -/
def deriveFinalLabel (commentRes : SentimentResult) (articleRes : Option SentimentResult)
    (mentioned : Bool) (articleRef : Bool) (stance : String) : String × ℚ × String :=
  if mentioned then
    (commentRes.label, commentRes.confidence, "comentario_direto")
  else if !articleRef then
    ("neutro", min 0.5 (max 0.25 (commentRes.confidence * 0.5)), "indefinido")
  else
    match articleRes with
    | some ar =>
      if ar.hits > 0 ∧ (ar.label = "positivo" ∨ ar.label = "negativo") then
        if stance = "concorda" ∨ stance = "discorda" then
          let finalLabel :=
            if stance = "concorda" then ar.label
            else if ar.label = "positivo" then "negativo" else "positivo"
          (finalLabel, roundTo 3 (min 1 (0.6 + 0.4 * ar.confidence)),
            "alinhamento_noticia_stance")
        else if commentRes.hits > 0 ∧
            (commentRes.label = "positivo" ∨ commentRes.label = "negativo") then
          let finalLabel :=
            if ar.label = "positivo" then commentRes.label
            else if commentRes.label = "negativo" then "positivo" else "negativo"
          (finalLabel,
            roundTo 3 (min 1 (0.5 + (ar.confidence + commentRes.confidence) / 2)),
            "alinhamento_noticia")
        else
          ("neutro", min 0.5 (max 0.25 (commentRes.confidence * 0.5)), "indefinido")
      else
        ("neutro", min 0.5 (max 0.25 (commentRes.confidence * 0.5)), "indefinido")
    | none =>
      ("neutro", min 0.5 (max 0.25 (commentRes.confidence * 0.5)), "indefinido")

/-- A `Lexicon` value whose positive and negative tables share the word
"bom": the dataclass constructor accepts it without any validation. -/
def overlapLex : Lexicon where
  pos := [("bom", 1)]
  neg := [("bom", -1)]
  negators := []
  intensifiers := []
  diminishers := []

end Sentiment

namespace Sentiment

lemma roundHalfEven_intCast (z : ℤ) : roundHalfEven (z : ℚ) = z := by
  unfold roundHalfEven
  rw [Int.floor_intCast]
  norm_num

lemma roundTo_eq_of_int (n : Nat) (x : ℚ) (z : ℤ) (h : x * 10 ^ n = (z : ℚ)) :
    roundTo n x = (z : ℚ) / 10 ^ n := by
  unfold roundTo
  rw [h, roundHalfEven_intCast]

lemma roundTo_eq_of_floor_lt (n : Nat) (x : ℚ) (z : ℤ)
    (hz : ⌊x * 10 ^ n⌋ = z) (hlt : x * 10 ^ n - (z : ℚ) < 1/2) :
    roundTo n x = (z : ℚ) / 10 ^ n := by
  unfold roundTo roundHalfEven
  rw [hz, if_pos hlt]

lemma roundHalfEven_floor_le (x : ℚ) : ⌊x⌋ ≤ roundHalfEven x := by
  unfold roundHalfEven
  split_ifs <;> omega

lemma roundHalfEven_le_floor_add_one (x : ℚ) : roundHalfEven x ≤ ⌊x⌋ + 1 := by
  unfold roundHalfEven
  split_ifs <;> omega

lemma roundHalfEven_mono {x y : ℚ} (h : x ≤ y) : roundHalfEven x ≤ roundHalfEven y := by
  have hf : ⌊x⌋ ≤ ⌊y⌋ := Int.floor_le_floor h
  rcases lt_or_eq_of_le hf with hlt | heq
  · calc roundHalfEven x ≤ ⌊x⌋ + 1 := roundHalfEven_le_floor_add_one x
      _ ≤ ⌊y⌋ := by omega
      _ ≤ roundHalfEven y := roundHalfEven_floor_le y
  · unfold roundHalfEven
    rw [← heq]
    split_ifs <;> first | omega | (exfalso; linarith)

lemma roundTo_mono (n : Nat) {x y : ℚ} (h : x ≤ y) : roundTo n x ≤ roundTo n y := by
  unfold roundTo
  have h1 : x * 10 ^ n ≤ y * 10 ^ n := by
    apply mul_le_mul_of_nonneg_right h (by positivity)
  have h2 : ((roundHalfEven (x * 10 ^ n) : ℚ)) ≤ ((roundHalfEven (y * 10 ^ n) : ℚ)) := by
    exact_mod_cast roundHalfEven_mono h1
  have h3 : (0 : ℚ) < 10 ^ n := by positivity
  exact (div_le_div_iff_of_pos_right h3).mpr h2

lemma mentionedIn_nil (toks : List String) : mentionedIn toks [] = false := rfl

lemma confBase_le_one (avg : ℚ) : confBase avg ≤ 1 := min_le_left 1 _

lemma confOf_false_le (avg : ℚ) (m : Bool) : confOf avg false ≤ confOf avg m := by
  cases m
  · exact le_refl _
  · unfold confOf
    simp only [Bool.false_eq_true, if_false, if_true]
    refine le_min (confBase_le_one avg) ?_
    linarith

lemma analyze_of_empty (lex : Lexicon) (text : String) (ts : List String)
    (h : tokenize text = []) :
    analyze lex text ts = ⟨"neutro", 0, 0.2, 0, false⟩ := by
  simp [analyze, h]

lemma analyze_of_no_hits (lex : Lexicon) (text : String) (ts : List String)
    (he : tokenize text ≠ []) (hz : hitsCount lex (tokenize text) = 0) :
    analyze lex text ts =
      ⟨"neutro", 0, 0.3 + (if mentionedIn (tokenize text) ts then 0.2 else 0), 0,
        mentionedIn (tokenize text) ts⟩ := by
  simp [analyze, he, hz]

lemma analyze_main (lex : Lexicon) (text : String) (ts : List String)
    (he : tokenize text ≠ []) (hz : hitsCount lex (tokenize text) ≠ 0) :
    analyze lex text ts =
      { label := labelOf (scoreSum lex (tokenize text) / (hitsCount lex (tokenize text) : ℚ))
        score := roundTo 4 (scoreSum lex (tokenize text) / (hitsCount lex (tokenize text) : ℚ))
        confidence := roundTo 3 (confOf
          (scoreSum lex (tokenize text) / (hitsCount lex (tokenize text) : ℚ))
          (mentionedIn (tokenize text) ts))
        hits := hitsCount lex (tokenize text)
        mentioned := mentionedIn (tokenize text) ts } := by
  simp [analyze, he, hz]

lemma analyze_hits_cases (lex : Lexicon) (text : String) (ts : List String)
    (h : (analyze lex text ts).hits ≠ 0) :
    tokenize text ≠ [] ∧ hitsCount lex (tokenize text) ≠ 0 := by
  by_cases he : tokenize text = []
  · exact absurd (by rw [analyze_of_empty lex text ts he]) h
  · by_cases hz : hitsCount lex (tokenize text) = 0
    · exact absurd (by rw [analyze_of_no_hits lex text ts he hz]) h
    · exact ⟨he, hz⟩

lemma toks_nao_e_bom : tokenize "não é bom" = ["nao", "e", "bom"] := by decide

lemma negAt_nao_e_bom : negAt Lexicon.small_pt ["nao", "e", "bom"] 2 = true := by decide

lemma pol_nao : termPolarity Lexicon.small_pt "nao" = 0 := by
  simp [termPolarity, dictGet, Lexicon.small_pt]

lemma pol_e : termPolarity Lexicon.small_pt "e" = 0 := by
  simp [termPolarity, dictGet, Lexicon.small_pt]

lemma pol_bom : termPolarity Lexicon.small_pt "bom" = 1 := by
  simp [termPolarity, dictGet, Lexicon.small_pt]
  norm_num

lemma range_three : List.range 3 = [0, 1, 2] := by decide

lemma hits_nao_e_bom : hitsCount Lexicon.small_pt ["nao", "e", "bom"] = 1 := by
  norm_num [hitsCount, hitAt, range_three, pol_nao, pol_e, pol_bom]

lemma mult_nao_e_bom : multAt Lexicon.small_pt ["nao", "e", "bom"] 2 = 1 := by
  simp [multAt, dictGet, Lexicon.small_pt]

lemma sum_nao_e_bom : scoreSum Lexicon.small_pt ["nao", "e", "bom"] = -1 := by
  norm_num [scoreSum, contribAt, range_three, pol_nao, pol_e, pol_bom,
    negAt_nao_e_bom, mult_nao_e_bom]

lemma analyze_nao_e_bom :
    analyze Lexicon.small_pt "não é bom" [] =
      ⟨"negativo", -1, 1, 1, false⟩ := by
  rw [analyze_main Lexicon.small_pt "não é bom" []
    (by rw [toks_nao_e_bom]; simp)
    (by rw [toks_nao_e_bom, hits_nao_e_bom]; omega)]
  rw [toks_nao_e_bom, hits_nao_e_bom, sum_nao_e_bom, mentionedIn_nil]
  have havg : (-1 : ℚ) / ((1 : Nat) : ℚ) = -1 := by norm_num
  rw [havg]
  have hlab : labelOf (-1) = "negativo" := by norm_num [labelOf]
  have hconf : confOf (-1) false = 1 := by
    unfold confOf confBase
    rw [abs_of_nonpos (by norm_num)]
    norm_num [min_def]
  rw [hlab, hconf]
  have hs : roundTo 4 (-1 : ℚ) = -1 := by
    have := roundTo_eq_of_int 4 (-1) (-10000) (by norm_num)
    rw [this]; norm_num
  have hc : roundTo 3 (1 : ℚ) = 1 := by
    have := roundTo_eq_of_int 3 1 1000 (by norm_num)
    rw [this]; norm_num
  rw [hs, hc]

end Sentiment

namespace Sentiment

lemma toks_bom : tokenize "bom" = ["bom"] := by decide

lemma hits_bom : hitsCount Lexicon.small_pt ["bom"] = 1 := by
  have hr : List.range 1 = [0] := by decide
  norm_num [hitsCount, hitAt, hr, pol_bom]

lemma pol_silva : termPolarity Lexicon.small_pt "silva" = 0 := by
  simp [termPolarity, dictGet, Lexicon.small_pt]

end Sentiment

namespace Sentiment

lemma scanBack_of_negator (lex : Lexicon) :
    ∀ (w : List String) (k : Nat), k < w.length →
      lex.negators.contains (w.getD k "") = true →
      (∀ k' : Nat, k' < k → lex.negators.contains (w.getD k' "") = false ∧
        clauseBoundaries.contains (w.getD k' "") = false) →
      scanBack lex w = true := by
  intro w
  induction w with
  | nil => intro k hk; simp at hk
  | cons t rest ih =>
    intro k hk hneg hprior
    cases k with
    | zero =>
      simp only [List.getD_cons_zero] at hneg
      simp at hneg
      simp [scanBack]
      exact Or.inl hneg
    | succ k =>
      have h0 := hprior 0 (Nat.succ_pos k)
      simp only [List.getD_cons_zero] at h0
      have h0' : t ∉ lex.negators ∧ t ∉ clauseBoundaries := by
        constructor
        · simpa using h0.1
        · simpa using h0.2
      simp [scanBack]
      refine Or.inr ⟨h0'.2, ?_⟩
      exact ih k (by simpa using hk) (by simpa using hneg)
        (fun k' hk' => by simpa using hprior (k' + 1) (by omega))

lemma scanBack_of_boundary (lex : Lexicon) :
    ∀ (w : List String) (k : Nat), k < w.length →
      clauseBoundaries.contains (w.getD k "") = true →
      (∀ k' : Nat, k' ≤ k → lex.negators.contains (w.getD k' "") = false) →
      scanBack lex w = false := by
  intro w
  induction w with
  | nil => intro k hk; simp at hk
  | cons t rest ih =>
    intro k hk hbound hnone
    have h0 : t ∉ lex.negators := by
      have := hnone 0 (Nat.zero_le k)
      simp only [List.getD_cons_zero] at this
      simpa using this
    cases k with
    | zero =>
      simp only [List.getD_cons_zero] at hbound
      have hb : t ∈ clauseBoundaries := by simpa using hbound
      simp [scanBack]
      exact ⟨h0, fun hnb => absurd hb hnb⟩
    | succ k =>
      by_cases hb : t ∈ clauseBoundaries
      · simp [scanBack]
        exact ⟨h0, fun hnb => absurd hb hnb⟩
      · simp [scanBack]
        refine ⟨h0, fun _ => ?_⟩
        exact ih k (by simpa using hk) (by simpa using hbound)
          (fun k' hk' => by simpa using hnone (k' + 1) (by omega))

end Sentiment

namespace Sentiment

/-- Claim C1, counterexample: the `Lexicon` dataclass performs no validation,
so a value whose positive and negative mappings share the word "bom" is
accepted at construction time (it is a well-formed `Lexicon` on which the
core operates without failure), refuting both the rejection and the
all-constructed-lexicons-disjoint parts of the claim. -/
theorem C1_overlap_lexicon_accepted :
    dictGet overlapLex.pos "bom" = some 1 ∧
    dictGet overlapLex.neg "bom" = some (-1) ∧
    termPolarity overlapLex "bom" = 1 := by
  refine ⟨?_, ?_, ?_⟩ <;> simp [dictGet, overlapLex, termPolarity]

/-- Claim C1, amended: `Lexicon` construction performs no overlap check (an
overlapping lexicon is accepted, with lookups resolved in favour of the
positive mapping), but the built-in `small_pt` lexicon does satisfy the
invariant: no word appears in both its positive and its negative mapping;
and no input is fatal within the core. -/
theorem C1_small_pt_disjoint :
    Lexicon.small_pt.pos.all
      (fun p => !(Lexicon.small_pt.neg.any (fun q => q.1 == p.1))) = true := by
  decide

/-- Claim C6: whenever an `analyze` result reports zero hits, its score is
exactly zero. -/
theorem C6_zero_hits_zero_score (lex : Lexicon) (text : String) (ts : List String)
    (h : (analyze lex text ts).hits = 0) :
    (analyze lex text ts).score = 0 := by
  by_cases he : tokenize text = []
  · rw [analyze_of_empty lex text ts he]
  · by_cases hz : hitsCount lex (tokenize text) = 0
    · rw [analyze_of_no_hits lex text ts he hz]
    · exfalso
      rw [analyze_main lex text ts he hz] at h
      exact hz h

/-- Witness for C6 at the concrete input `analyze(small_pt, "ola", [])`,
which tokenizes to one token carrying no polarity. -/
theorem C6_zero_hits_zero_score_witness :
    (analyze Lexicon.small_pt "ola" []).score = 0 := by
  refine C6_zero_hits_zero_score Lexicon.small_pt "ola" [] ?_
  have ht : tokenize "ola" = ["ola"] := by decide
  have hz : hitsCount Lexicon.small_pt ["ola"] = 0 := by
    have hp : termPolarity Lexicon.small_pt "ola" = 0 := by
      simp [termPolarity, dictGet, Lexicon.small_pt]
    have hr : List.range 1 = [0] := by decide
    simp [hitsCount, hitAt, hr, hp]
  rw [analyze_of_no_hits Lexicon.small_pt "ola" [] (by rw [ht]; simp) (by rw [ht]; exact hz)]

/-- Claim C7: a text with no tokens yields the fixed empty-input result,
regardless of the supplied target variants. -/
theorem C7_no_tokens (lex : Lexicon) (text : String) (ts : List String)
    (h : tokenize text = []) :
    analyze lex text ts = ⟨"neutro", 0, 0.2, 0, false⟩ :=
  analyze_of_empty lex text ts h

/-- Witness for C7 at `analyze("", ["João Silva"])`. -/
theorem C7_no_tokens_witness :
    analyze Lexicon.small_pt "" ["João Silva"] = ⟨"neutro", 0, 0.2, 0, false⟩ :=
  C7_no_tokens Lexicon.small_pt "" ["João Silva"] (by decide)

/-- Claim C8: any text matching a disagreement phrase is classified
`discorda` (and in particular not `concorda`), because the disagreement list
is consulted before the agreement list. -/
theorem C8_disagree_precedence (t : String)
    (h : disagreePhrases.any (fun pat => strContains (normalize t) pat) = true) :
    detectNewsStance t = "discorda" ∧ detectNewsStance t ≠ "concorda" := by
  have hs : detectNewsStance t = "discorda" := by
    unfold detectNewsStance
    simp only [h, if_true]
  exact ⟨hs, by rw [hs]; decide⟩

/-- Witness for C8 at "não concordo com a matéria": the text also contains
an agreement phrase ("concordo"), yet stance detection returns `discorda`. -/
theorem C8_disagree_precedence_witness :
    agreePhrases.any (fun pat => strContains (normalize "não concordo com a matéria") pat) = true ∧
    detectNewsStance "não concordo com a matéria" = "discorda" :=
  ⟨by decide, (C8_disagree_precedence "não concordo com a matéria" (by decide)).1⟩

/-- Claim C10: `_term_polarity` resolves a word present in both mappings in
favour of the positive strength, and returns 0 for a word in neither. -/
theorem C10_positive_mapping_priority :
    (∀ (lex : Lexicon) (t : String) (vp vn : ℚ),
        dictGet lex.pos t = some vp → dictGet lex.neg t = some vn →
        termPolarity lex t = vp) ∧
    (∀ (lex : Lexicon) (t : String),
        dictGet lex.pos t = none → dictGet lex.neg t = none →
        termPolarity lex t = 0) := by
  constructor
  · intro lex t vp vn hp _
    simp [termPolarity, hp]
  · intro lex t hp hn
    simp [termPolarity, hp, hn]

/-- Witness for C10: on the overlapping lexicon the positive strength wins
for "bom", and on `small_pt` the word "nao" (in neither mapping) gets 0. -/
theorem C10_positive_mapping_priority_witness :
    termPolarity overlapLex "bom" = 1 ∧ termPolarity Lexicon.small_pt "nao" = 0 :=
  ⟨C10_positive_mapping_priority.1 overlapLex "bom" 1 (-1)
      (by simp [dictGet, overlapLex]) (by simp [dictGet, overlapLex]),
    C10_positive_mapping_priority.2 Lexicon.small_pt "nao"
      (by simp [dictGet, Lexicon.small_pt]) (by simp [dictGet, Lexicon.small_pt])⟩

end Sentiment

namespace Sentiment

/-- Claim C2, counterexample: with an article confidence of 0.501 the code
returns the 3-decimal rounding 0.8, not the claimed exact value
`min(1, 0.6 + 0.4 * 0.501) = 0.8004`. -/
theorem C2_rounding_counterexample :
    deriveFinalLabel ⟨"neutro", 0, 0.2, 0, false⟩
        (some ⟨"positivo", 0.5, 0.501, 3, false⟩) false true "concorda" =
      ("positivo", 0.8, "alinhamento_noticia_stance") ∧
    (0.8 : ℚ) ≠ min 1 (0.6 + 0.4 * 0.501) := by
  constructor
  · have hmin : min (1:ℚ) (0.6 + 0.4 * 0.501) = 0.8004 := by norm_num [min_def]
    have hfl : ⌊(0.8004 : ℚ) * 10 ^ 3⌋ = 800 := by
      rw [Int.floor_eq_iff]; norm_num
    have hr : roundTo 3 (0.8004 : ℚ) = 0.8 := by
      rw [roundTo_eq_of_floor_lt 3 0.8004 800 hfl (by norm_num)]
      norm_num
    simp [deriveFinalLabel, hmin, hr]
  · norm_num [min_def]

/-- Claim C2, amended: under the claim's preconditions the final label
follows the stance (same as the article for `concorda`, opposite for
`discorda`), the origin is the stance-alignment tag, and the confidence is
`min(1, 0.6 + 0.4 * article_confidence)` rounded to 3 decimal places. -/
theorem C2_stance_confidence (c ar : SentimentResult) (st : String)
    (hhits : ar.hits > 0)
    (hlab : ar.label = "positivo" ∨ ar.label = "negativo")
    (hst : st = "concorda" ∨ st = "discorda") :
    deriveFinalLabel c (some ar) false true st =
      ((if st = "concorda" then ar.label
        else if ar.label = "positivo" then "negativo" else "positivo"),
        roundTo 3 (min 1 (0.6 + 0.4 * ar.confidence)),
        "alinhamento_noticia_stance") := by
  rcases hst with hs | hs <;> subst hs <;> rcases hlab with hl | hl <;>
    simp [deriveFinalLabel, hl, hhits]

/-- Witness for C2 (amended) at article confidence 0.8: the final
confidence is exactly 0.92, label follows the article, origin is the
stance-alignment tag. -/
theorem C2_stance_confidence_witness :
    deriveFinalLabel ⟨"neutro", 0, 0.2, 0, false⟩
        (some ⟨"positivo", 0.5, 0.8, 3, false⟩) false true "concorda" =
      ("positivo", 0.92, "alinhamento_noticia_stance") := by
  have h := C2_stance_confidence ⟨"neutro", 0, 0.2, 0, false⟩
    ⟨"positivo", 0.5, 0.8, 3, false⟩ "concorda" (by norm_num) (Or.inl rfl) (Or.inl rfl)
  rw [h]
  have hmin : min (1:ℚ) (0.6 + 0.4 * (0.8:ℚ)) = 0.92 := by norm_num [min_def]
  have hr : roundTo 3 (0.92 : ℚ) = 0.92 := by
    rw [roundTo_eq_of_int 3 0.92 920 (by norm_num)]
    norm_num
  simp [hmin, hr]

/-- Claim C3: a negator among the up-to-3 tokens immediately preceding a
polarized token inverts the sign of its contribution; a clause-boundary
token reached first stops the backward scan with no inversion; and
`analyze("não é bom", [])` yields score -1 with label `negativo`. -/
theorem C3_negation_window :
    (∀ (lex : Lexicon) (toks : List String) (i k : Nat),
        k < (negWindow toks i).length →
        lex.negators.contains ((negWindow toks i).getD k "") = true →
        (∀ k' : Nat, k' < k →
          lex.negators.contains ((negWindow toks i).getD k' "") = false ∧
          clauseBoundaries.contains ((negWindow toks i).getD k' "") = false) →
        termPolarity lex (toks.getD i "") ≠ 0 →
        contribAt lex toks i = -rawContrib lex toks i) ∧
    (∀ (lex : Lexicon) (toks : List String) (i k : Nat),
        k < (negWindow toks i).length →
        clauseBoundaries.contains ((negWindow toks i).getD k "") = true →
        (∀ k' : Nat, k' ≤ k →
          lex.negators.contains ((negWindow toks i).getD k' "") = false) →
        termPolarity lex (toks.getD i "") ≠ 0 →
        contribAt lex toks i = rawContrib lex toks i) ∧
    analyze Lexicon.small_pt "não é bom" [] = ⟨"negativo", -1, 1, 1, false⟩ := by
  refine ⟨?_, ?_, analyze_nao_e_bom⟩
  · intro lex toks i k hk hneg hprior hpol
    have hn : negAt lex toks i = true :=
      scanBack_of_negator lex (negWindow toks i) k hk hneg hprior
    unfold contribAt rawContrib
    rw [if_neg hpol, negAt] at *
    rw [hn]
    simp [neg_mul]
  · intro lex toks i k hk hbound hnone hpol
    have hn : negAt lex toks i = false :=
      scanBack_of_boundary lex (negWindow toks i) k hk hbound hnone
    unfold contribAt rawContrib
    rw [if_neg hpol, negAt] at *
    rw [hn]
    simp

/-- Witness for C3: in the tokens of "não é bom", the polarized token "bom"
(index 2) is negated by "nao" found at backward-window position 1, so its
contribution is the negation of its raw polarity-times-modifier. -/
theorem C3_negation_window_witness :
    contribAt Lexicon.small_pt ["nao", "e", "bom"] 2 =
      -rawContrib Lexicon.small_pt ["nao", "e", "bom"] 2 :=
  C3_negation_window.1 Lexicon.small_pt ["nao", "e", "bom"] 2 1
    (by decide)
    (by decide)
    (fun k' hk' => by
      have hk0 : k' = 0 := by omega
      subst hk0
      exact ⟨by decide, by decide⟩)
    (by
      rw [show (["nao", "e", "bom"].getD 2 "") = "bom" from by decide, pol_bom]
      norm_num)

end Sentiment

namespace Sentiment

/-- Claim C4: with at least one polarity hit, the label is `positivo` iff
`avg > 0.2`, `negativo` iff `avg < -0.2`, and `neutro` otherwise, where
`avg` is the accumulated score divided by the hit count. -/
theorem C4_label_thresholds (lex : Lexicon) (text : String) (ts : List String)
    (h : 0 < (analyze lex text ts).hits) :
    ((analyze lex text ts).label = "positivo" ↔
      0.2 < scoreSum lex (tokenize text) / (hitsCount lex (tokenize text) : ℚ)) ∧
    ((analyze lex text ts).label = "negativo" ↔
      scoreSum lex (tokenize text) / (hitsCount lex (tokenize text) : ℚ) < -0.2) ∧
    (¬(0.2 < scoreSum lex (tokenize text) / (hitsCount lex (tokenize text) : ℚ)) →
      ¬(scoreSum lex (tokenize text) / (hitsCount lex (tokenize text) : ℚ) < -0.2) →
      (analyze lex text ts).label = "neutro") := by
  obtain ⟨he, hz⟩ := analyze_hits_cases lex text ts (Nat.pos_iff_ne_zero.mp h)
  rw [analyze_main lex text ts he hz]
  dsimp only
  unfold labelOf
  by_cases h1 : (0.2:ℚ) < scoreSum lex (tokenize text) / (hitsCount lex (tokenize text) : ℚ)
  · rw [if_pos h1]
    exact ⟨iff_of_true rfl h1,
      iff_of_false (by decide) (by linarith),
      fun h2 _ => absurd h1 h2⟩
  · rw [if_neg h1]
    by_cases h2 : scoreSum lex (tokenize text) / (hitsCount lex (tokenize text) : ℚ) < -0.2
    · rw [if_pos h2]
      exact ⟨iff_of_false (by decide) h1,
        iff_of_true rfl h2,
        fun _ h3 => absurd h2 h3⟩
    · rw [if_neg h2]
      exact ⟨iff_of_false (by decide) h1,
        iff_of_false (by decide) h2,
        fun _ _ => rfl⟩

/-- Witness for C4 at `analyze(small_pt, "bom", [])`, whose single token is
a positive hit with average 1. -/
theorem C4_label_thresholds_witness :
    ((analyze Lexicon.small_pt "bom" []).label = "positivo" ↔
      0.2 < scoreSum Lexicon.small_pt (tokenize "bom") /
        (hitsCount Lexicon.small_pt (tokenize "bom") : ℚ)) ∧
    ((analyze Lexicon.small_pt "bom" []).label = "negativo" ↔
      scoreSum Lexicon.small_pt (tokenize "bom") /
        (hitsCount Lexicon.small_pt (tokenize "bom") : ℚ) < -0.2) ∧
    (¬(0.2 < scoreSum Lexicon.small_pt (tokenize "bom") /
        (hitsCount Lexicon.small_pt (tokenize "bom") : ℚ)) →
      ¬(scoreSum Lexicon.small_pt (tokenize "bom") /
        (hitsCount Lexicon.small_pt (tokenize "bom") : ℚ) < -0.2) →
      (analyze Lexicon.small_pt "bom" []).label = "neutro") :=
  C4_label_thresholds Lexicon.small_pt "bom" [] (by
    have hh : hitsCount Lexicon.small_pt (tokenize "bom") = 1 := by
      rw [toks_bom]
      exact hits_bom
    rw [analyze_main Lexicon.small_pt "bom" [] (by rw [toks_bom]; simp)
      (by rw [hh]; omega)]
    dsimp only
    rw [hh]
    omega)

/-- Claim C5: without a direct mention, if there is no article reference, or
no article result, or no alignment rule applies, the cascade falls back to a
neutral label with the comment confidence halved and clamped to
[0.25, 0.5], origin `indefinido`; a missing article result is never fatal. -/
theorem C5_undetermined_fallback (c : SentimentResult) (a : Option SentimentResult)
    (ref : Bool) (st : String)
    (h : ref = false ∨ a = none ∨
      (∀ ar : SentimentResult, a = some ar →
        ¬(ar.hits > 0 ∧ (ar.label = "positivo" ∨ ar.label = "negativo") ∧
          ((st = "concorda" ∨ st = "discorda") ∨
            (c.hits > 0 ∧ (c.label = "positivo" ∨ c.label = "negativo")))))) :
    deriveFinalLabel c a false ref st =
      ("neutro", min 0.5 (max 0.25 (c.confidence * 0.5)), "indefinido") := by
  unfold deriveFinalLabel
  cases ref with
  | false => simp
  | true =>
    rcases h with href | hnone | hcond
    · exact absurd href (by simp)
    · subst hnone
      simp
    · cases a with
      | none => simp
      | some ar =>
        have hna := hcond ar rfl
        simp only [Bool.false_eq_true, if_false, Bool.not_true]
        by_cases hA : ar.hits > 0 ∧ (ar.label = "positivo" ∨ ar.label = "negativo")
        · have hCD : ¬((st = "concorda" ∨ st = "discorda") ∨
              (c.hits > 0 ∧ (c.label = "positivo" ∨ c.label = "negativo"))) :=
            fun hcd => hna ⟨hA.1, hA.2, hcd⟩
          rw [if_pos hA, if_neg (fun hc => hCD (Or.inl hc)),
            if_neg (fun hd => hCD (Or.inr hd))]
        · rw [if_neg hA]

/-- Witness for C5: no mention, no article reference, missing article
result; the final decision is neutral/undetermined with confidence
`clamp(0.8 * 0.5, 0.25, 0.5) = 0.4`. -/
theorem C5_undetermined_fallback_witness :
    deriveFinalLabel ⟨"positivo", 1, 0.8, 2, false⟩ none false false "indefinido" =
      ("neutro", 0.4, "indefinido") := by
  have h := C5_undetermined_fallback ⟨"positivo", 1, 0.8, 2, false⟩ none false "indefinido"
    (Or.inl rfl)
  rw [h]
  norm_num [min_def, max_def]

/-- Claim C9: for a text with at least one polarity hit, supplying target
variants can only raise the confidence (the +0.15 mention bonus, capped at
1, never decreases it). -/
theorem C9_mention_confidence_monotone (lex : Lexicon) (text : String) (ts : List String)
    (h : 0 < (analyze lex text ts).hits) :
    (analyze lex text []).confidence ≤ (analyze lex text ts).confidence := by
  obtain ⟨he, hz⟩ := analyze_hits_cases lex text ts (Nat.pos_iff_ne_zero.mp h)
  rw [analyze_main lex text ts he hz, analyze_main lex text [] he hz, mentionedIn_nil]
  dsimp only
  exact roundTo_mono 3 (confOf_false_le _ _)

/-- Witness for C9 at "silva é bom" with target "João Silva" (surname
mentioned): confidence with the target is at least the one without. -/
theorem C9_mention_confidence_monotone_witness :
    (analyze Lexicon.small_pt "silva é bom" []).confidence ≤
      (analyze Lexicon.small_pt "silva é bom" ["João Silva"]).confidence :=
  C9_mention_confidence_monotone Lexicon.small_pt "silva é bom" ["João Silva"] (by
    have ht : tokenize "silva é bom" = ["silva", "e", "bom"] := by decide
    have hh : hitsCount Lexicon.small_pt ["silva", "e", "bom"] = 1 := by
      norm_num [hitsCount, hitAt, range_three, pol_silva, pol_e, pol_bom]
    rw [analyze_main Lexicon.small_pt "silva é bom" ["João Silva"]
      (by rw [ht]; simp) (by rw [ht, hh]; omega)]
    dsimp only
    rw [ht, hh]
    omega)

end Sentiment
